import Mathlib

/-!
A shallow embedding of the iFit batch-analysis script (`iFit.py`) and its
interface to the `ifit` package (Parameters, Analyser, spectrum loaders).

The script sorts the measurement file names, normalises backslashes, sets up a
fixed Parameter registry, builds an Analyser, installs an averaged dark
spectrum once, then loops over the measurement files: each iteration reads a
spectrum, fits it, writes one row into a preallocated results table, and
optionally updates a live plot.  After the loop the table is written to a CSV
file exactly once.

External numeric computations (the nonlinear fit itself, spectrum file
parsing, dark averaging) are parameters of the embedding (oracles); the
orchestration around them is translated from the source.  Numeric values are
modelled as rationals.
-/

/-- One entry of the Parameter Registry: name, current (seed) value, vary
flag and optional reference-spectrum path, as created by `params.add` in the
setup section of `iFit.py`. -/
structure Param where
  name : String
  value : ℚ
  vary : Bool
  xpath : Option String
deriving DecidableEq

/-- Modelled from the spec: `ifit.parameters.Parameters.add` is not under
`src/`; per §4.1 it appends a parameter in insertion order and fails with
`DuplicateParameterError` (here: `none`) if the name is already present. -/
def addParam (ps : List Param) (name : String) (value : ℚ) (vary : Bool)
    (xpath : Option String) : Option (List Param) :=
  if ps.any (fun p => p.name = name) then none
  else some (ps ++ [⟨name, value, vary, xpath⟩])

/-- The parameter registry built by the setup section of `iFit.py`
(lines 61-85), in insertion order. -/
def scriptParams : List Param :=
  [⟨"SO2", 10 ^ 16, true, some "Ref/SO2_295K.txt"⟩,
   ⟨"O3", 10 ^ 19, true, some "Ref/O3_243K.txt"⟩,
   ⟨"Ring", 1 / 10, true, some "Ref/Ring.txt"⟩,
   ⟨"bg_poly0", 0, true, none⟩,
   ⟨"bg_poly1", 0, true, none⟩,
   ⟨"bg_poly2", 0, true, none⟩,
   ⟨"bg_poly3", 1, true, none⟩,
   ⟨"offset0", 0, true, none⟩,
   ⟨"shift0", 0, true, none⟩,
   ⟨"shift1", 1 / 10, true, none⟩,
   ⟨"fwem", 3 / 5, true, none⟩,
   ⟨"k", 2, true, none⟩,
   ⟨"a_w", 0, true, none⟩,
   ⟨"a_k", 0, true, none⟩]

/-- Acquisition metadata returned with a spectrum (`spec_info`); the loop
only uses its `time` field. -/
structure SpecInfo where
  time : ℚ
deriving DecidableEq

/-- The quadruple `x, y, spec_info, read_err` returned by
`read_spectrum(fname, spec_type)`. -/
structure ReadResult where
  x : List ℚ
  y : List ℚ
  spec_info : SpecInfo
  read_err : Bool
deriving DecidableEq

/-- External spectrum reader: `read_spectrum` from `ifit.load_spectra`,
taken as an oracle (file parsing is outside the orchestration core). -/
abbrev ReadOracle := String → String → ReadResult

/-- External dark averaging: `average_spectra(fnames, spec_type)` returning
an axis and an averaged intensity. -/
abbrev AvgOracle := List String → String → List ℚ × List ℚ

/-- One entry of a Fit Result's parameter collection (`fit.params.values()`),
carrying the fitted value and 1-sigma error. -/
structure FitParam where
  name : String
  fit_val : ℚ
  fit_err : ℚ
deriving DecidableEq

/-- The structured result of one `fit_spectrum` call, with the fields the
script consumes. -/
structure FitResult where
  params : List FitParam
  grid : List ℚ
  spec : List ℚ
  fit : List ℚ
  resid : List ℚ
  meas_od : List (String × List ℚ)
  synth_od : List (String × List ℚ)
  nerr : ℚ
  int_lo : ℚ
  int_hi : ℚ
  int_av : ℚ
deriving DecidableEq

/-- The `interp_method` option of `fit_spectrum`. -/
inductive InterpMethod
  | nearest
  | linear
  | cubic
deriving DecidableEq

/-- The numeric outcomes of one fit, as functions of the seed parameters and
the measured spectrum: the mathematics of the fit is external (§1), so it is
an oracle parameter of the embedding. -/
structure FitOracle where
  fit_val : List Param → List ℚ × List ℚ → String → ℚ
  fit_err : List Param → List ℚ × List ℚ → String → ℚ
  nerr : List Param → List ℚ × List ℚ → ℚ
  int_lo : List Param → List ℚ × List ℚ → ℚ
  int_hi : List Param → List ℚ × List ℚ → ℚ
  int_av : List Param → List ℚ × List ℚ → ℚ
  grid : List Param → List ℚ × List ℚ → List ℚ
  spec : List Param → List ℚ × List ℚ → List ℚ
  fitc : List Param → List ℚ × List ℚ → List ℚ
  resid : List Param → List ℚ × List ℚ → List ℚ
  meas_od : List Param → List ℚ × List ℚ → String → List ℚ
  synth_od : List Param → List ℚ × List ℚ → String → List ℚ

/-- The Analyser's state: its own copy of the parameter registry, the fit
window, the Fraunhofer reference path, and the dark spectrum installed after
construction (`analyser.dark_spec = dark`). -/
structure Analyser where
  params : List Param
  fit_window : List ℚ
  frs_path : String
  dark_spec : Option (List ℚ)
deriving DecidableEq

/-- Modelled from the spec: `ifit.spectral_analysis.Analyser.fit_spectrum` is
not under `src/`.  Per §4.1/§6 it returns a Fit Result whose parameter
collection lists one entry per registry parameter in registry order, computes
optical-depth curves exactly for the species named in `calc_od`, and, when
`update_params` is true, overwrites its registry's seed values with the
fitted values (warm start).  The dark spectrum and fit window are read-only
state (§5) and are preserved. -/
def Analyser.fit_spectrum (fo : FitOracle) (a : Analyser)
    (spectrum : List ℚ × List ℚ) (update_params : Bool) (_im : InterpMethod)
    (calc_od : List String) : FitResult × Analyser :=
  let fit : FitResult :=
    { params := a.params.map
        (fun p => ⟨p.name, fo.fit_val a.params spectrum p.name,
                   fo.fit_err a.params spectrum p.name⟩),
      grid := fo.grid a.params spectrum,
      spec := fo.spec a.params spectrum,
      fit := fo.fitc a.params spectrum,
      resid := fo.resid a.params spectrum,
      meas_od := calc_od.map (fun s => (s, fo.meas_od a.params spectrum s)),
      synth_od := calc_od.map (fun s => (s, fo.synth_od a.params spectrum s)),
      nerr := fo.nerr a.params spectrum,
      int_lo := fo.int_lo a.params spectrum,
      int_hi := fo.int_hi a.params spectrum,
      int_av := fo.int_av a.params spectrum }
  let newParams :=
    if update_params then
      a.params.map
        (fun p => ⟨p.name, fo.fit_val a.params spectrum p.name, p.vary, p.xpath⟩)
    else a.params
  (fit, { a with params := newParams })

/-- Boolean lexicographic comparison of character lists by code point,
matching Python's string ordering used by `list.sort()`. -/
def charListLe : List Char → List Char → Bool
  | [], _ => true
  | _ :: _, [] => false
  | a :: as, b :: bs => if a < b then true else if a = b then charListLe as bs else false

/-- The sort key relation of `list.sort()` on strings: lexicographic
comparison of the character data. -/
def strLeB (a b : String) : Prop := charListLe a.data b.data = true

instance : DecidableRel strLeB :=
  fun a b => inferInstanceAs (Decidable (charListLe a.data b.data = true))

/-- `fnames.sort()`: sort file names lexicographically. -/
def sortFnames (l : List String) : List String :=
  List.insertionSort strLeB l

/-- `f.replace(chr(92), chr(47))`: turn backslashes into forward slashes. -/
def normSlash (s : String) : String :=
  ⟨s.data.map (fun c => if c = '\\' then '/' else c)⟩

/-- The spectrum-type tag passed to the loaders (`spec_type = 'iFit'`). -/
def specType : String := "iFit"

/-- The output path (`save_path = 'iFit_output.csv'`). -/
def savePath : String := "iFit_output.csv"

/-- The measurement names as processed by the loop: sorted, then
backslash-normalised (lines 43-51). -/
def measNames (meas : List String) : List String :=
  (sortFnames meas).map normSlash

/-- Column names per parameter: `cols += [par, par_err]` for each parameter,
in registry order (lines 139-140). -/
def paramCols : List Param → List String
  | [] => []
  | p :: tl => p.name :: (p.name ++ "_err") :: paramCols tl

/-- The result table's header (lines 138-141). -/
def mkCols (ps : List Param) : List String :=
  "Number" :: "Time" :: (paramCols ps ++ ["fit_quality", "int_lo", "int_hi", "int_av"])

/-- Row cells per fitted parameter: `row += [par.fit_val, par.fit_err]`
(lines 157-158). -/
def paramVals : List FitParam → List ℚ
  | [] => []
  | p :: tl => p.fit_val :: p.fit_err :: paramVals tl

/-- One result-table row. -/
abbrev Row := List ℚ

/-- The row assembled in the loop body (lines 156-160). -/
def mkRow (i : Nat) (t : ℚ) (fit : FitResult) : Row :=
  ((i : ℚ) :: t :: (paramVals fit.params ++ [fit.nerr, fit.int_lo, fit.int_hi, fit.int_av]) : List ℚ)

/-- Observable events of one run, used to state when rows are written and
when the table is persisted. -/
inductive Event
  | readSpec (fname : String)
  | writeRow (i : Nat)
  | plotUpdate (i : Nat)
  | persistTo (path : String)
deriving DecidableEq

/-- Extract one column of the (partially filled) table; unwritten rows
contribute the empty (NaN) placeholder. -/
def dfCol (df : List (Option (List ℚ))) (j : Nat) : List (Option ℚ) :=
  df.map (fun o => o.bind (fun r => r[j]?))

/-- Column selection by header name (`df[name]`). -/
def dfColByName (cols : List String) (df : List (Option (List ℚ)))
    (name : String) : List (Option ℚ) :=
  dfCol df (cols.findIdx (fun c => c = name))

/-- Lookup of one species' optical-depth curve (`fit.meas_od[s]`), total for
state passing; presence of the key is proved separately. -/
def odGet (m : List (String × List ℚ)) (s : String) : List ℚ :=
  (m.lookup s).getD []

/-- The five line artifacts of the live figure plus the one-time
`tight_layout` latch (lines 119-127, 163-178). -/
structure PlotState where
  l0 : List ℚ × List ℚ
  l1 : List ℚ × List ℚ
  l2 : List ℚ × List ℚ
  l3 : List ℚ × List ℚ
  l4 : List ℚ × List ℚ
  l5 : List (Option ℚ) × List (Option ℚ)
  tightened : Bool
deriving DecidableEq

/-- The empty line artifacts created before the loop (lines 119-127). -/
def initPlot : PlotState :=
  ⟨([], []), ([], []), ([], []), ([], []), ([], []), ([], []), false⟩

/-- The per-iteration plot refresh (lines 165-178): the five spectral lines
take the current fit's curves and `l5` takes the `Number` and `SO2` columns
of the whole table as it stands after this row was written. -/
def updatePlot (cols : List String) (ps : PlotState) (fit : FitResult)
    (df : List (Option (List ℚ))) (i : Nat) : PlotState :=
  { l0 := (fit.grid, fit.spec),
    l1 := (fit.grid, fit.fit),
    l2 := (fit.grid, fit.resid),
    l3 := (fit.grid, odGet fit.meas_od "SO2"),
    l4 := (fit.grid, odGet fit.synth_od "SO2"),
    l5 := (dfColByName cols df "Number", dfColByName cols df "SO2"),
    tightened := ps.tightened || decide (i = 0) }

/-- The mutable state threaded through the analysis loop. -/
structure LoopState where
  analyser : Analyser
  cols : List String
  df : List (Option (List ℚ))
  plot : PlotState
  events : List Event
deriving DecidableEq

/-- The body of `for i, fname in enumerate(meas_fnames)` (lines 146-178):
read the spectrum, fit it, assemble the row, write it at position `i`
(`df.loc[i] = row`), and refresh the plot when plotting is on.  The
`read_err` status returned by the reader is bound but never inspected. -/
def loopBody (ro : ReadOracle) (fo : FitOracle) (flag : Bool) (st : LoopState)
    (i : Nat) (fname : String) : LoopState :=
  let rr := ro fname specType
  let fa := st.analyser.fit_spectrum fo (rr.x, rr.y) true InterpMethod.linear ["SO2"]
  let row := mkRow i rr.spec_info.time fa.1
  let df2 := st.df.set i (some row)
  { analyser := fa.2,
    cols := st.cols,
    df := df2,
    plot := if flag then updatePlot st.cols st.plot fa.1 df2 i else st.plot,
    events := st.events ++ [Event.readSpec fname, Event.writeRow i]
      ++ (if flag then [Event.plotUpdate i] else []) }

/-- The analysis loop itself, carrying the enumeration counter. -/
def processFrom (ro : ReadOracle) (fo : FitOracle) (flag : Bool) :
    LoopState → Nat → List String → LoopState
  | st, _, [] => st
  | st, i, f :: fs => processFrom ro fo flag (loopBody ro fo flag st i f) (i + 1) fs

/-- The Analyser as constructed on lines 88-96: registry, fit window,
Fraunhofer reference, and the dark spectrum averaged from the sorted,
normalised dark file names and installed once before the loop. -/
def setupAnalyser (avg : AvgOracle) (darks : List String) (ps : List Param) : Analyser :=
  { params := ps,
    fit_window := [310, 320],
    frs_path := "Ref/sao2010.txt",
    dark_spec := some (avg ((sortFnames darks).map normSlash) specType).2 }

/-- The state just before the loop: configured analyser, header derived once
from the registry, a table preallocated with one empty row per measurement
(`pd.DataFrame(index=np.arange(len(meas_fnames)), columns=cols)`), empty
plot, no events. -/
def initState (avg : AvgOracle) (darks : List String) (ps : List Param)
    (n : Nat) : LoopState :=
  { analyser := setupAnalyser avg darks ps,
    cols := mkCols ps,
    df := List.replicate n none,
    plot := initPlot,
    events := [] }

/-- The loop state after the first `k` iterations of the run.  `midState`
with `k` short of the number of files is also the point an interrupted run
stops at: the script installs no handler, so an interruption mid-loop ends
the process before `df.to_csv` is reached. -/
def midState (ro : ReadOracle) (fo : FitOracle) (avg : AvgOracle) (flag : Bool)
    (ps : List Param) (darks : List String) (meas : List String) (k : Nat) : LoopState :=
  processFrom ro fo flag (initState avg darks ps (measNames meas).length) 0
    ((measNames meas).take k)

/-- What a persisted file holds: the header and the table rows. -/
abbrev FileContent := List String × List (Option (List ℚ))

/-- A file system as a path-keyed association list. -/
abbrev FileStore := List (String × FileContent)

/-- `df.to_csv(save_path)`: write the table at the path, replacing any
existing file there. -/
def writeFile : FileStore → String → FileContent → FileStore
  | [], p, c => [(p, c)]
  | (q, d) :: rest, p, c =>
      if q = p then (p, c) :: rest else (q, d) :: writeFile rest p c

/-- A complete run (lines 135-185): run the loop over all sorted, normalised
measurement names, then persist the table once. -/
def runBatch (ro : ReadOracle) (fo : FitOracle) (avg : AvgOracle) (flag : Bool)
    (ps : List Param) (darks : List String) (meas : List String)
    (store0 : FileStore) : LoopState × FileStore :=
  let final := processFrom ro fo flag (initState avg darks ps (measNames meas).length) 0
    (measNames meas)
  ({ final with events := final.events ++ [Event.persistTo savePath] },
   writeFile store0 savePath (final.cols, final.df))

/-- The fit produced at iteration `j` of a run: the Analyser state carried
into iteration `j`, applied to the `j`-th processed file. -/
def fitAt (ro : ReadOracle) (fo : FitOracle) (avg : AvgOracle) (flag : Bool)
    (ps : List Param) (darks : List String) (meas : List String) (j : Nat) : FitResult :=
  ((midState ro fo avg flag ps darks meas j).analyser.fit_spectrum fo
    (((ro ((measNames meas).getD j "") specType).x,
      (ro ((measNames meas).getD j "") specType).y))
    true InterpMethod.linear ["SO2"]).1

/-- The row written at iteration `j` of a run. -/
def rowAt (ro : ReadOracle) (fo : FitOracle) (avg : AvgOracle) (flag : Bool)
    (ps : List Param) (darks : List String) (meas : List String) (j : Nat) : Row :=
  mkRow j ((ro ((measNames meas).getD j "") specType).spec_info.time)
    (fitAt ro fo avg flag ps darks meas j)

/-- Two spectrum readers that return the same data and metadata everywhere,
though possibly different `read_err` statuses. -/
def roAgree (ro1 ro2 : ReadOracle) : Prop :=
  ∀ f t, (ro1 f t).x = (ro2 f t).x ∧ (ro1 f t).y = (ro2 f t).y ∧
    (ro1 f t).spec_info = (ro2 f t).spec_info

/-- How many times a run persisted the table. -/
def countPersist : List Event → Nat
  | [] => 0
  | Event.persistTo _ :: tl => countPersist tl + 1
  | _ :: tl => countPersist tl

/-- A concrete spectrum reader whose reads always succeed, for evaluating
the embedding at concrete inputs. -/
def cRo : ReadOracle := fun _ _ => ⟨[1, 2], [3, 4], ⟨5⟩, false⟩

/-- A concrete spectrum reader that reports a read error on every file but
returns the same data as `cRo`. -/
def cRoBad : ReadOracle := fun _ _ => ⟨[1, 2], [3, 4], ⟨5⟩, true⟩

/-- A concrete fit oracle with constant outcomes. -/
def cFo : FitOracle :=
  { fit_val := fun _ _ _ => 7, fit_err := fun _ _ _ => 2,
    nerr := fun _ _ => 0, int_lo := fun _ _ => 1, int_hi := fun _ _ => 2,
    int_av := fun _ _ => 3, grid := fun _ _ => [310], spec := fun _ _ => [1],
    fitc := fun _ _ => [1], resid := fun _ _ => [0],
    meas_od := fun _ _ _ => [5], synth_od := fun _ _ _ => [6] }

/-- A concrete fit oracle whose fitted value for a parameter is one more
than its seed value, to make warm-start propagation visible. -/
def cFoSeed : FitOracle :=
  { cFo with
    fit_val := fun seeds _ n =>
      ((seeds.find? (fun p => p.name = n)).map (fun p => p.value)).getD 0 + 1 }

/-- A concrete dark-average oracle. -/
def cAvg : AvgOracle := fun _ _ => ([1], [2])

/-- `charListLe` is the canonical lexicographic order on character lists. -/
theorem charListLe_iff : ∀ as bs : List Char, charListLe as bs = true ↔ as ≤ bs
  | [], bs => by simp [charListLe, List.nil_le]
  | a :: as, [] => by
    simp only [charListLe, Bool.false_eq_true, false_iff]
    intro h
    exact absurd (List.nil_lt_cons a as) (not_lt.mpr h)
  | a :: as, b :: bs => by
    rcases lt_trichotomy a b with hab | hab | hab
    · simp only [charListLe, if_pos hab, true_iff]
      exact le_of_lt (List.Lex.rel hab)
    · subst hab
      rw [show charListLe (a :: as) (a :: bs) =
        (if a < a then true else if a = a then charListLe as bs else false) from rfl,
        if_neg (lt_irrefl a), if_pos rfl, charListLe_iff as bs]
      constructor
      · intro h
        rw [← not_lt] at h ⊢
        exact fun hlt => h (List.Lex.cons_iff.mp hlt)
      · intro h
        rw [← not_lt] at h ⊢
        exact fun hlt => h (List.Lex.cons_iff.mpr hlt)
    · have hne : ¬ a < b := not_lt.mpr (le_of_lt hab)
      have hne2 : ¬ a = b := ne_of_gt hab
      simp only [charListLe, if_neg hne, if_neg hne2, Bool.false_eq_true, false_iff]
      exact not_le.mpr (List.Lex.rel hab)

/-- `strLeB` coincides with `≤` on strings. -/
theorem strLe_iff (a b : String) : strLeB a b ↔ a ≤ b := by
  rw [show strLeB a b ↔ charListLe a.data b.data = true from Iff.rfl,
    String.le_iff_toList_le]
  exact charListLe_iff a.data b.data

instance : IsTotal String strLeB :=
  ⟨fun a b => (le_total a b).imp (strLe_iff a b).mpr (strLe_iff b a).mpr⟩

instance : IsTrans String strLeB :=
  ⟨fun a b c hab hbc =>
    (strLe_iff a c).mpr (le_trans ((strLe_iff a b).mp hab) ((strLe_iff b c).mp hbc))⟩

/-- The sorted file-name list is sorted for the lexicographic string order. -/
theorem sortFnames_sorted (l : List String) : (sortFnames l).Sorted (· ≤ ·) :=
  (List.sorted_insertionSort _ l).imp (fun h => (strLe_iff _ _).mp h)

/-- Sorting permutes the input file names. -/
theorem sortFnames_perm (l : List String) : (sortFnames l).Perm l :=
  List.perm_insertionSort _ l

theorem sortFnames_length (l : List String) : (sortFnames l).length = l.length :=
  (sortFnames_perm l).length_eq

theorem measNames_length (meas : List String) :
    (measNames meas).length = meas.length := by
  simp [measNames, sortFnames_length]

theorem paramCols_length : ∀ ps : List Param, (paramCols ps).length = 2 * ps.length
  | [] => rfl
  | p :: tl => by simp [paramCols, paramCols_length tl]; ring

theorem paramVals_length : ∀ l : List FitParam, (paramVals l).length = 2 * l.length
  | [] => rfl
  | p :: tl => by simp [paramVals, paramVals_length tl]; ring

theorem paramCols_getElem_val : ∀ (ps : List Param) (k : Nat),
    (paramCols ps)[2 * k]? = ps[k]?.map (fun p => p.name)
  | [], k => by simp [paramCols]
  | p :: tl, 0 => by simp [paramCols]
  | p :: tl, k + 1 => by
    have h2 : 2 * (k + 1) = 2 * k + 1 + 1 := by ring
    simp only [paramCols, h2, List.getElem?_cons_succ, paramCols_getElem_val tl k]

theorem paramCols_getElem_err : ∀ (ps : List Param) (k : Nat),
    (paramCols ps)[2 * k + 1]? = ps[k]?.map (fun p => p.name ++ "_err")
  | [], k => by simp [paramCols]
  | p :: tl, 0 => by simp [paramCols]
  | p :: tl, k + 1 => by
    have h2 : 2 * (k + 1) + 1 = 2 * k + 1 + 1 + 1 := by ring
    simp only [paramCols, h2, List.getElem?_cons_succ, paramCols_getElem_err tl k]

theorem paramVals_getElem_val : ∀ (l : List FitParam) (k : Nat),
    (paramVals l)[2 * k]? = l[k]?.map (fun p => p.fit_val)
  | [], k => by simp [paramVals]
  | p :: tl, 0 => by simp [paramVals]
  | p :: tl, k + 1 => by
    have h2 : 2 * (k + 1) = 2 * k + 1 + 1 := by ring
    simp only [paramVals, h2, List.getElem?_cons_succ, paramVals_getElem_val tl k]

theorem paramVals_getElem_err : ∀ (l : List FitParam) (k : Nat),
    (paramVals l)[2 * k + 1]? = l[k]?.map (fun p => p.fit_err)
  | [], k => by simp [paramVals]
  | p :: tl, 0 => by simp [paramVals]
  | p :: tl, k + 1 => by
    have h2 : 2 * (k + 1) + 1 = 2 * k + 1 + 1 + 1 := by ring
    simp only [paramVals, h2, List.getElem?_cons_succ, paramVals_getElem_err tl k]

/-- Header position of a parameter's value column. -/
theorem mkCols_getElem_val (ps : List Param) (k : Nat) (hk : k < ps.length) :
    (mkCols ps)[2 + 2 * k]? = some (ps.get ⟨k, hk⟩).name := by
  have hlen : 2 * k < (paramCols ps).length := by
    rw [paramCols_length]; omega
  simp only [mkCols, show 2 + 2 * k = 2 * k + 1 + 1 by ring, List.getElem?_cons_succ]
  rw [List.getElem?_append_left hlen, paramCols_getElem_val,
    List.getElem?_eq_getElem hk]
  rfl

/-- Header position of a parameter's error column. -/
theorem mkCols_getElem_err (ps : List Param) (k : Nat) (hk : k < ps.length) :
    (mkCols ps)[2 + (2 * k + 1)]? = some ((ps.get ⟨k, hk⟩).name ++ "_err") := by
  have hlen : 2 * k + 1 < (paramCols ps).length := by
    rw [paramCols_length]; omega
  simp only [mkCols, show 2 + (2 * k + 1) = 2 * k + 1 + 1 + 1 by ring, List.getElem?_cons_succ]
  rw [List.getElem?_append_left hlen, paramCols_getElem_err,
    List.getElem?_eq_getElem hk]
  rfl

/-- Row position of a parameter's fitted value. -/
theorem mkRow_getElem_val (i : Nat) (t : ℚ) (fit : FitResult) (k : Nat)
    (hk : k < fit.params.length) :
    (mkRow i t fit)[2 + 2 * k]? = some (fit.params.get ⟨k, hk⟩).fit_val := by
  have hlen : 2 * k < (paramVals fit.params).length := by
    rw [paramVals_length]; omega
  simp only [mkRow, show 2 + 2 * k = 2 * k + 1 + 1 by ring, List.getElem?_cons_succ]
  rw [List.getElem?_append_left hlen, paramVals_getElem_val,
    List.getElem?_eq_getElem hk]
  rfl

/-- Row position of a parameter's fitted error. -/
theorem mkRow_getElem_err (i : Nat) (t : ℚ) (fit : FitResult) (k : Nat)
    (hk : k < fit.params.length) :
    (mkRow i t fit)[2 + (2 * k + 1)]? = some (fit.params.get ⟨k, hk⟩).fit_err := by
  have hlen : 2 * k + 1 < (paramVals fit.params).length := by
    rw [paramVals_length]; omega
  simp only [mkRow, show 2 + (2 * k + 1) = 2 * k + 1 + 1 + 1 by ring, List.getElem?_cons_succ]
  rw [List.getElem?_append_left hlen, paramVals_getElem_err,
    List.getElem?_eq_getElem hk]
  rfl

theorem mkRow_head (i : Nat) (t : ℚ) (fit : FitResult) :
    (mkRow i t fit)[0]? = some ((i : ℚ)) := rfl

theorem mkRow_length (i : Nat) (t : ℚ) (fit : FitResult) :
    (mkRow i t fit).length = 2 * fit.params.length + 6 := by
  simp [mkRow, paramVals_length, Nat.mul_comm]

theorem mkCols_length (ps : List Param) :
    (mkCols ps).length = 2 * ps.length + 6 := by
  simp [mkCols, paramCols_length, Nat.mul_comm]

theorem processFrom_append (ro : ReadOracle) (fo : FitOracle) (flag : Bool) :
    ∀ (l1 l2 : List String) (st : LoopState) (i : Nat),
    processFrom ro fo flag st i (l1 ++ l2) =
      processFrom ro fo flag (processFrom ro fo flag st i l1) (i + l1.length) l2
  | [], l2, st, i => by simp [processFrom]
  | f :: fs, l2, st, i => by
    have h : i + (f :: fs).length = i + 1 + fs.length := by
      rw [List.length_cons]; omega
    calc processFrom ro fo flag st i ((f :: fs) ++ l2)
        = processFrom ro fo flag (loopBody ro fo flag st i f) (i + 1) (fs ++ l2) := rfl
      _ = processFrom ro fo flag
            (processFrom ro fo flag (loopBody ro fo flag st i f) (i + 1) fs)
            (i + 1 + fs.length) l2 :=
          processFrom_append ro fo flag fs l2 (loopBody ro fo flag st i f) (i + 1)
      _ = processFrom ro fo flag (processFrom ro fo flag st i (f :: fs))
            (i + (f :: fs).length) l2 := by rw [h]; rfl

theorem loopBody_df_length (ro : ReadOracle) (fo : FitOracle) (flag : Bool)
    (st : LoopState) (i : Nat) (f : String) :
    (loopBody ro fo flag st i f).df.length = st.df.length := by
  simp [loopBody]

theorem processFrom_df_length (ro : ReadOracle) (fo : FitOracle) (flag : Bool) :
    ∀ (fs : List String) (st : LoopState) (i : Nat),
    (processFrom ro fo flag st i fs).df.length = st.df.length
  | [], st, i => rfl
  | f :: fs, st, i => by
    rw [processFrom, processFrom_df_length ro fo flag fs, loopBody_df_length]

theorem loopBody_cols (ro : ReadOracle) (fo : FitOracle) (flag : Bool)
    (st : LoopState) (i : Nat) (f : String) :
    (loopBody ro fo flag st i f).cols = st.cols := rfl

theorem processFrom_cols (ro : ReadOracle) (fo : FitOracle) (flag : Bool) :
    ∀ (fs : List String) (st : LoopState) (i : Nat),
    (processFrom ro fo flag st i fs).cols = st.cols
  | [], st, i => rfl
  | f :: fs, st, i => by
    rw [processFrom, processFrom_cols ro fo flag fs, loopBody_cols]

theorem loopBody_dark (ro : ReadOracle) (fo : FitOracle) (flag : Bool)
    (st : LoopState) (i : Nat) (f : String) :
    (loopBody ro fo flag st i f).analyser.dark_spec = st.analyser.dark_spec := rfl

theorem processFrom_dark (ro : ReadOracle) (fo : FitOracle) (flag : Bool) :
    ∀ (fs : List String) (st : LoopState) (i : Nat),
    (processFrom ro fo flag st i fs).analyser.dark_spec = st.analyser.dark_spec
  | [], st, i => rfl
  | f :: fs, st, i => by
    rw [processFrom, processFrom_dark ro fo flag fs, loopBody_dark]

theorem loopBody_df_ne (ro : ReadOracle) (fo : FitOracle) (flag : Bool)
    (st : LoopState) (i : Nat) (f : String) (j : Nat) (h : i ≠ j) :
    (loopBody ro fo flag st i f).df[j]? = st.df[j]? := by
  simp only [loopBody]
  exact List.getElem?_set_ne h

theorem processFrom_df_lt (ro : ReadOracle) (fo : FitOracle) (flag : Bool) :
    ∀ (fs : List String) (st : LoopState) (i j : Nat), j < i →
    (processFrom ro fo flag st i fs).df[j]? = st.df[j]?
  | [], st, i, j, _ => rfl
  | f :: fs, st, i, j, h => by
    rw [processFrom, processFrom_df_lt ro fo flag fs _ _ _ (by omega),
      loopBody_df_ne ro fo flag st i f j (by omega)]

theorem processFrom_df_ge (ro : ReadOracle) (fo : FitOracle) (flag : Bool) :
    ∀ (fs : List String) (st : LoopState) (i j : Nat), i + fs.length ≤ j →
    (processFrom ro fo flag st i fs).df[j]? = st.df[j]?
  | [], st, i, j, _ => rfl
  | f :: fs, st, i, j, h => by
    rw [List.length_cons] at h
    rw [processFrom, processFrom_df_ge ro fo flag fs _ _ _ (by omega),
      loopBody_df_ne ro fo flag st i f j (by omega)]

theorem countPersist_append : ∀ l1 l2 : List Event,
    countPersist (l1 ++ l2) = countPersist l1 + countPersist l2
  | [], l2 => by simp [countPersist]
  | e :: tl, l2 => by
    cases e <;> simp [countPersist, countPersist_append tl l2] <;> omega

theorem loopBody_countPersist (ro : ReadOracle) (fo : FitOracle) (flag : Bool)
    (st : LoopState) (i : Nat) (f : String) :
    countPersist (loopBody ro fo flag st i f).events = countPersist st.events := by
  simp only [loopBody, countPersist_append]
  cases flag <;> simp [countPersist]

theorem processFrom_countPersist (ro : ReadOracle) (fo : FitOracle) (flag : Bool) :
    ∀ (fs : List String) (st : LoopState) (i : Nat),
    countPersist (processFrom ro fo flag st i fs).events = countPersist st.events
  | [], st, i => rfl
  | f :: fs, st, i => by
    rw [processFrom, processFrom_countPersist ro fo flag fs, loopBody_countPersist]

theorem midState_zero (ro : ReadOracle) (fo : FitOracle) (avg : AvgOracle)
    (flag : Bool) (ps : List Param) (darks : List String) (meas : List String) :
    midState ro fo avg flag ps darks meas 0 =
      initState avg darks ps (measNames meas).length := rfl

theorem midState_df_length (ro : ReadOracle) (fo : FitOracle) (avg : AvgOracle)
    (flag : Bool) (ps : List Param) (darks : List String) (meas : List String)
    (k : Nat) :
    (midState ro fo avg flag ps darks meas k).df.length = (measNames meas).length := by
  unfold midState
  rw [processFrom_df_length]
  simp [initState]

theorem midState_succ (ro : ReadOracle) (fo : FitOracle) (avg : AvgOracle)
    (flag : Bool) (ps : List Param) (darks : List String) (meas : List String)
    (k : Nat) (hk : k < (measNames meas).length) :
    midState ro fo avg flag ps darks meas (k + 1) =
      loopBody ro fo flag (midState ro fo avg flag ps darks meas k) k
        ((measNames meas).getD k "") := by
  unfold midState
  rw [List.take_succ, processFrom_append]
  have hlen : ((measNames meas).take k).length = k := by
    rw [List.length_take]; omega
  rw [hlen, List.getElem?_eq_getElem hk]
  simp [processFrom, List.getD_eq_getElem?_getD, List.getElem?_eq_getElem hk]

theorem midState_df_get (ro : ReadOracle) (fo : FitOracle) (avg : AvgOracle)
    (flag : Bool) (ps : List Param) (darks : List String) (meas : List String) :
    ∀ (m j : Nat), j < m → m ≤ (measNames meas).length →
    (midState ro fo avg flag ps darks meas m).df[j]? =
      some (some (rowAt ro fo avg flag ps darks meas j))
  | 0, j, hj, _ => absurd hj (Nat.not_lt_zero j)
  | m + 1, j, hj, hm => by
    have hmN : m < (measNames meas).length := by omega
    rw [midState_succ ro fo avg flag ps darks meas m hmN]
    rcases Nat.lt_or_ge j m with hjm | hjm
    · rw [loopBody_df_ne ro fo flag _ m _ j (by omega)]
      exact midState_df_get ro fo avg flag ps darks meas m j hjm (by omega)
    · have hjeq : j = m := by omega
      subst hjeq
      show ((midState ro fo avg flag ps darks meas j).df.set j _)[j]? = _
      have hlen : j < (midState ro fo avg flag ps darks meas j).df.length := by
        rw [midState_df_length]; omega
      rw [List.getElem?_set_eq hlen]
      rfl

theorem midState_df_none (ro : ReadOracle) (fo : FitOracle) (avg : AvgOracle)
    (flag : Bool) (ps : List Param) (darks : List String) (meas : List String)
    (k j : Nat) (h1 : k ≤ j) (h2 : j < (measNames meas).length) :
    (midState ro fo avg flag ps darks meas k).df[j]? = some none := by
  unfold midState
  have htake : ((measNames meas).take k).length ≤ k := by
    rw [List.length_take]; omega
  rw [processFrom_df_ge ro fo flag _ _ _ j (by omega)]
  simp [initState, List.getElem?_replicate, h2]

theorem loopBody_flag_agnostic (ro : ReadOracle) (fo : FitOracle) (b1 b2 : Bool)
    (st1 st2 : LoopState) (i : Nat) (f : String)
    (h1 : st1.analyser = st2.analyser) (h2 : st1.cols = st2.cols)
    (h3 : st1.df = st2.df) :
    (loopBody ro fo b1 st1 i f).analyser = (loopBody ro fo b2 st2 i f).analyser ∧
    (loopBody ro fo b1 st1 i f).cols = (loopBody ro fo b2 st2 i f).cols ∧
    (loopBody ro fo b1 st1 i f).df = (loopBody ro fo b2 st2 i f).df := by
  refine ⟨?_, h2, ?_⟩ <;> simp [loopBody, h1, h2, h3]

theorem processFrom_flag_agnostic (ro : ReadOracle) (fo : FitOracle) (b1 b2 : Bool) :
    ∀ (fs : List String) (st1 st2 : LoopState) (i : Nat),
    st1.analyser = st2.analyser → st1.cols = st2.cols → st1.df = st2.df →
    (processFrom ro fo b1 st1 i fs).analyser = (processFrom ro fo b2 st2 i fs).analyser ∧
    (processFrom ro fo b1 st1 i fs).cols = (processFrom ro fo b2 st2 i fs).cols ∧
    (processFrom ro fo b1 st1 i fs).df = (processFrom ro fo b2 st2 i fs).df
  | [], st1, st2, i, h1, h2, h3 => ⟨h1, h2, h3⟩
  | f :: fs, st1, st2, i, h1, h2, h3 => by
    obtain ⟨g1, g2, g3⟩ := loopBody_flag_agnostic ro fo b1 b2 st1 st2 i f h1 h2 h3
    exact processFrom_flag_agnostic ro fo b1 b2 fs _ _ (i + 1) g1 g2 g3

theorem loopBody_ro_agree (ro1 ro2 : ReadOracle) (h : roAgree ro1 ro2)
    (fo : FitOracle) (flag : Bool) (st : LoopState) (i : Nat) (f : String) :
    loopBody ro1 fo flag st i f = loopBody ro2 fo flag st i f := by
  obtain ⟨hx, hy, hs⟩ := h f specType
  simp [loopBody, hx, hy, hs]

theorem processFrom_ro_agree (ro1 ro2 : ReadOracle) (h : roAgree ro1 ro2)
    (fo : FitOracle) (flag : Bool) :
    ∀ (fs : List String) (st : LoopState) (i : Nat),
    processFrom ro1 fo flag st i fs = processFrom ro2 fo flag st i fs
  | [], st, i => rfl
  | f :: fs, st, i => by
    rw [processFrom, processFrom, loopBody_ro_agree ro1 ro2 h,
      processFrom_ro_agree ro1 ro2 h fo flag fs]

theorem writeFile_lookup (p : String) (c : FileContent) :
    ∀ fs : FileStore, (writeFile fs p c).lookup p = some c
  | [] => by simp [writeFile, List.lookup]
  | (q, d) :: rest => by
    by_cases hq : q = p
    · subst hq
      simp [writeFile, List.lookup]
    · have hpq : (p == q) = false := beq_eq_false_iff_ne.mpr (fun e => hq e.symm)
      simp [writeFile, if_neg hq, List.lookup, hpq, writeFile_lookup p c rest]

theorem runBatch_state_df (ro : ReadOracle) (fo : FitOracle) (avg : AvgOracle)
    (flag : Bool) (ps : List Param) (darks : List String) (meas : List String)
    (store0 : FileStore) :
    (runBatch ro fo avg flag ps darks meas store0).1.df =
      (midState ro fo avg flag ps darks meas (measNames meas).length).df := by
  simp [runBatch, midState, List.take_length]

theorem midState_cols (ro : ReadOracle) (fo : FitOracle) (avg : AvgOracle)
    (flag : Bool) (ps : List Param) (darks : List String) (meas : List String)
    (k : Nat) :
    (midState ro fo avg flag ps darks meas k).cols = mkCols ps := by
  unfold midState
  rw [processFrom_cols]
  rfl

theorem loopBody_params_names (ro : ReadOracle) (fo : FitOracle) (flag : Bool)
    (st : LoopState) (i : Nat) (f : String) :
    (loopBody ro fo flag st i f).analyser.params.map (fun p => p.name) =
      st.analyser.params.map (fun p => p.name) := by
  simp [loopBody, Analyser.fit_spectrum]

theorem processFrom_params_names (ro : ReadOracle) (fo : FitOracle) (flag : Bool) :
    ∀ (fs : List String) (st : LoopState) (i : Nat),
    (processFrom ro fo flag st i fs).analyser.params.map (fun p => p.name) =
      st.analyser.params.map (fun p => p.name)
  | [], st, i => rfl
  | f :: fs, st, i => by
    rw [processFrom, processFrom_params_names ro fo flag fs, loopBody_params_names]

theorem midState_params_names (ro : ReadOracle) (fo : FitOracle) (avg : AvgOracle)
    (flag : Bool) (ps : List Param) (darks : List String) (meas : List String)
    (k : Nat) :
    (midState ro fo avg flag ps darks meas k).analyser.params.map (fun p => p.name) =
      ps.map (fun p => p.name) := by
  unfold midState
  rw [processFrom_params_names]
  rfl

/--
C1.  For every input list of N measurement file identifiers, the batch run
produces a Result Table with exactly N rows, processed and appended in
lexicographically sorted identifier order (the i-th row is built from the
i-th name of the sorted, slash-normalised input), and the row index recorded
in each row equals its 0-based position in that order; the persisted table
is the loop's table, never reshuffled.
-/
theorem c1_ordering (ro : ReadOracle) (fo : FitOracle) (avg : AvgOracle)
    (flag : Bool) (ps : List Param) (darks : List String) (meas : List String)
    (store0 : FileStore) (i : Nat) (hi : i < meas.length) :
    (runBatch ro fo avg flag ps darks meas store0).1.df.length = meas.length ∧
    (sortFnames meas).Sorted (· ≤ ·) ∧
    (sortFnames meas).Perm meas ∧
    (measNames meas)[i]? = ((sortFnames meas)[i]?).map normSlash ∧
    (runBatch ro fo avg flag ps darks meas store0).1.df[i]? =
      some (some (rowAt ro fo avg flag ps darks meas i)) ∧
    (rowAt ro fo avg flag ps darks meas i)[0]? = some ((i : ℚ)) ∧
    (runBatch ro fo avg flag ps darks meas store0).2.lookup savePath =
      some ((runBatch ro fo avg flag ps darks meas store0).1.cols,
        (runBatch ro fo avg flag ps darks meas store0).1.df) := by
  have hN : (measNames meas).length = meas.length := measNames_length meas
  refine ⟨?_, sortFnames_sorted meas, sortFnames_perm meas, ?_, ?_, ?_, ?_⟩
  · rw [runBatch_state_df, midState_df_length, hN]
  · simp [measNames]
  · rw [runBatch_state_df]
    exact midState_df_get ro fo avg flag ps darks meas (measNames meas).length i
      (by omega) (le_refl _)
  · rfl
  · simp only [runBatch]
    exact writeFile_lookup savePath _ store0

/-- C1 witness at a concrete two-file batch. -/
theorem c1_ordering_witness :
    (runBatch cRo cFo cAvg true scriptParams [] ["b", "a"] []).1.df.length = 2 ∧
    (runBatch cRo cFo cAvg true scriptParams [] ["b", "a"] []).1.df[0]? =
      some (some (rowAt cRo cFo cAvg true scriptParams [] ["b", "a"] 0)) ∧
    (rowAt cRo cFo cAvg true scriptParams [] ["b", "a"] 0)[0]? = some ((0 : ℚ)) := by
  have h := c1_ordering cRo cFo cAvg true scriptParams [] ["b", "a"] [] 0 (by decide)
  exact ⟨h.1, h.2.2.2.2.1, h.2.2.2.2.2.1⟩

/--
C2.  The output header lists, after `Number` and `Time` and before the
trailing quality/intensity columns, one (value, error) column pair per
registry parameter in insertion order, and every assembled row places each
parameter's fitted value and error at that same column pair, for every fit
outcome (any oracle, any spectrum, any analyser carrying the registry).
-/
theorem c2_schema (ps : List Param) (fo : FitOracle) (a : Analyser)
    (sp : List ℚ × List ℚ) (up : Bool) (im : InterpMethod) (od : List String)
    (i : Nat) (t : ℚ) (k : Nat) (ha : a.params = ps) (hk : k < ps.length) :
    (mkCols ps)[0]? = some "Number" ∧
    (mkCols ps)[1]? = some "Time" ∧
    (mkCols ps)[2 + 2 * k]? = (ps[k]?).map (fun p => p.name) ∧
    (mkCols ps)[2 + (2 * k + 1)]? = (ps[k]?).map (fun p => p.name ++ "_err") ∧
    ((a.fit_spectrum fo sp up im od).1.params[k]?).map (fun p => p.name) =
      (ps[k]?).map (fun p => p.name) ∧
    (mkRow i t (a.fit_spectrum fo sp up im od).1)[2 + 2 * k]? =
      ((a.fit_spectrum fo sp up im od).1.params[k]?).map (fun p => p.fit_val) ∧
    (mkRow i t (a.fit_spectrum fo sp up im od).1)[2 + (2 * k + 1)]? =
      ((a.fit_spectrum fo sp up im od).1.params[k]?).map (fun p => p.fit_err) ∧
    (mkRow i t (a.fit_spectrum fo sp up im od).1).length = (mkCols ps).length := by
  subst ha
  have hfp : (a.fit_spectrum fo sp up im od).1.params =
      a.params.map (fun p =>
        (⟨p.name, fo.fit_val a.params sp p.name, fo.fit_err a.params sp p.name⟩ : FitParam)) := rfl
  have hk2 : k < (a.fit_spectrum fo sp up im od).1.params.length := by
    rw [hfp, List.length_map]; exact hk
  refine ⟨by simp [mkCols], by simp [mkCols], ?_, ?_, ?_, ?_, ?_, ?_⟩
  · rw [mkCols_getElem_val a.params k hk, List.getElem?_eq_getElem hk]
    rfl
  · rw [mkCols_getElem_err a.params k hk, List.getElem?_eq_getElem hk]
    rfl
  · rw [hfp, List.getElem?_map, List.getElem?_eq_getElem hk]
    rfl
  · rw [mkRow_getElem_val _ _ _ k hk2, List.getElem?_eq_getElem hk2]
    rfl
  · rw [mkRow_getElem_err _ _ _ k hk2, List.getElem?_eq_getElem hk2]
    rfl
  · rw [mkRow_length, mkCols_length, hfp, List.length_map]

/-- C2 witness at the script registry and a concrete fit. -/
theorem c2_schema_witness :
    (mkCols scriptParams)[2 + 2 * 0]? = (scriptParams[0]?).map (fun p => p.name) ∧
    (mkRow 0 5 ((setupAnalyser cAvg [] scriptParams).fit_spectrum cFo ([1], [2]) true
        InterpMethod.linear ["SO2"]).1)[2 + 2 * 0]? =
      (((setupAnalyser cAvg [] scriptParams).fit_spectrum cFo ([1], [2]) true
        InterpMethod.linear ["SO2"]).1.params[0]?).map (fun p => p.fit_val) := by
  have h := c2_schema scriptParams cFo (setupAnalyser cAvg [] scriptParams) ([1], [2])
    true InterpMethod.linear ["SO2"] 0 5 0 rfl (by decide)
  exact ⟨h.2.2.1, h.2.2.2.2.2.1⟩

/--
C3.  Warm-start propagation: with `update_params=True` (as the loop always
passes), the Analyser state received by the invocation for spectrum `i+1`
carries, for every registry position `k`, a seed value equal to the fitted
value of that same parameter in the Fit Result of spectrum `i`.
-/
theorem c3_warm_start (ro : ReadOracle) (fo : FitOracle) (avg : AvgOracle)
    (flag : Bool) (ps : List Param) (darks : List String) (meas : List String)
    (i k : Nat) (hi : i + 1 < (measNames meas).length) :
    ((midState ro fo avg flag ps darks meas (i + 1)).analyser.params[k]?).map
        (fun p => (p.name, p.value)) =
      ((fitAt ro fo avg flag ps darks meas i).params[k]?).map
        (fun p => (p.name, p.fit_val)) := by
  rw [midState_succ ro fo avg flag ps darks meas i (by omega)]
  simp [loopBody, fitAt, Analyser.fit_spectrum, List.getElem?_map, Option.map_map,
    Function.comp]
  congr 1

/-- C3 witness: with the seed-sensitive oracle `cFoSeed`, the second
invocation's SO2 seed equals the first fit's SO2 output. -/
theorem c3_warm_start_witness :
    ((midState cRo cFoSeed cAvg true scriptParams [] ["b", "a"] 1).analyser.params[0]?).map
        (fun p => (p.name, p.value)) =
      ((fitAt cRo cFoSeed cAvg true scriptParams [] ["b", "a"] 0).params[0]?).map
        (fun p => (p.name, p.fit_val)) :=
  c3_warm_start cRo cFoSeed cAvg true scriptParams [] ["b", "a"] 0 0 (by decide)

/--
C4 as stated is refuted: with a reader that reports a read error on every
file, the driver neither skips the identifier nor flags its row — the run
still writes a row at index 0 and the whole table equals the table of the
identical run whose reads all succeed, so no cell carries a failure
indicator and no failure is recorded; the loop ignores `read_err` entirely.
-/
theorem c4_counterexample :
    (runBatch cRoBad cFo cAvg false scriptParams [] ["a"] []).1.df =
      (runBatch cRo cFo cAvg false scriptParams [] ["a"] []).1.df ∧
    (runBatch cRoBad cFo cAvg false scriptParams [] ["a"] []).1.df[0]? =
      some (some (rowAt cRoBad cFo cAvg false scriptParams [] ["a"] 0)) ∧
    countPersist (runBatch cRoBad cFo cAvg false scriptParams [] ["a"] []).1.events = 1 := by
  refine ⟨by decide, by decide, by decide⟩

/--
C4 amended: the Batch Driver applies neither skip-on-failure nor
flag-on-failure.  The `read_err` status has no effect on the run at all: two
readers that agree on data and metadata produce identical runs, every
identifier still receives its ordinary row, and the batch continues through
persistence.
-/
theorem c4_read_failure (ro1 ro2 : ReadOracle) (fo : FitOracle) (avg : AvgOracle)
    (flag : Bool) (ps : List Param) (darks : List String) (meas : List String)
    (store0 : FileStore) (h : roAgree ro1 ro2) :
    runBatch ro1 fo avg flag ps darks meas store0 =
      runBatch ro2 fo avg flag ps darks meas store0 ∧
    (runBatch ro1 fo avg flag ps darks meas store0).1.df.length = meas.length ∧
    countPersist (runBatch ro1 fo avg flag ps darks meas store0).1.events = 1 := by
  refine ⟨?_, ?_, ?_⟩
  · simp only [runBatch]
    rw [processFrom_ro_agree ro1 ro2 h]
  · rw [runBatch_state_df, midState_df_length, measNames_length]
  · simp only [runBatch, countPersist_append, processFrom_countPersist]
    rfl

/-- C4 amended witness: a concrete all-failing reader against the
all-succeeding one. -/
theorem c4_read_failure_witness :
    runBatch cRoBad cFo cAvg true scriptParams [] ["a"] [] =
      runBatch cRo cFo cAvg true scriptParams [] ["a"] [] ∧
    (runBatch cRoBad cFo cAvg true scriptParams [] ["a"] []).1.df.length = 1 :=
  have h := c4_read_failure cRoBad cRo cFo cAvg true scriptParams [] ["a"] []
    (fun _ _ => ⟨rfl, rfl, rfl⟩)
  ⟨h.1, h.2.1⟩

/--
C5's interruption clause is refuted: a run of a one-file batch interrupted
before its first iteration stops in the loop state, where no persistence has
been recorded at all — the script has no handler that would write the table
on interruption, so "persisted exactly once even when interrupted" fails.
-/
theorem c5_counterexample :
    countPersist (midState cRo cFo cAvg true scriptParams [] ["a"] 0).events = 0 := by
  decide

/--
C5 amended: when the loop completes, the table is persisted exactly once,
strictly after the loop (the loop itself records no persistence; the one
persist event follows all loop events), and the write replaces whatever the
store held at the output path.  If the run is interrupted mid-loop, no
persistence occurs at all.
-/
theorem c5_persist (ro : ReadOracle) (fo : FitOracle) (avg : AvgOracle)
    (flag : Bool) (ps : List Param) (darks : List String) (meas : List String)
    (store0 : FileStore) (k : Nat) (hk : k ≤ (measNames meas).length) :
    (runBatch ro fo avg flag ps darks meas store0).1.events =
      (midState ro fo avg flag ps darks meas (measNames meas).length).events ++
        [Event.persistTo savePath] ∧
    countPersist (midState ro fo avg flag ps darks meas k).events = 0 ∧
    countPersist (runBatch ro fo avg flag ps darks meas store0).1.events = 1 ∧
    (runBatch ro fo avg flag ps darks meas store0).2.lookup savePath =
      some ((runBatch ro fo avg flag ps darks meas store0).1.cols,
        (runBatch ro fo avg flag ps darks meas store0).1.df) := by
  refine ⟨?_, ?_, ?_, ?_⟩
  · simp [runBatch, midState, List.take_length]
  · unfold midState
    rw [processFrom_countPersist]
    rfl
  · simp only [runBatch, countPersist_append, processFrom_countPersist]
    rfl
  · simp only [runBatch]
    exact writeFile_lookup savePath _ store0

/-- C5 amended witness at a concrete one-file batch. -/
theorem c5_persist_witness :
    countPersist (runBatch cRo cFo cAvg true scriptParams [] ["a"] []).1.events = 1 ∧
    (runBatch cRo cFo cAvg true scriptParams [] ["a"] []).2.lookup savePath =
      some ((runBatch cRo cFo cAvg true scriptParams [] ["a"] []).1.cols,
        (runBatch cRo cFo cAvg true scriptParams [] ["a"] []).1.df) :=
  have h := c5_persist cRo cFo cAvg true scriptParams [] ["a"] [] 0 (by decide)
  ⟨h.2.2.1, h.2.2.2⟩

/--
C6.  Visualization independence: the run with the Live View enabled and the
run with it disabled produce the same header, the same Result Table, and
the same persisted file store; only plot state and plot events differ.
-/
theorem c6_visualization_independence (ro : ReadOracle) (fo : FitOracle)
    (avg : AvgOracle) (ps : List Param) (darks : List String)
    (meas : List String) (store0 : FileStore) :
    (runBatch ro fo avg true ps darks meas store0).1.cols =
      (runBatch ro fo avg false ps darks meas store0).1.cols ∧
    (runBatch ro fo avg true ps darks meas store0).1.df =
      (runBatch ro fo avg false ps darks meas store0).1.df ∧
    (runBatch ro fo avg true ps darks meas store0).2 =
      (runBatch ro fo avg false ps darks meas store0).2 := by
  obtain ⟨g1, g2, g3⟩ := processFrom_flag_agnostic ro fo true false (measNames meas)
    (initState avg darks ps (measNames meas).length)
    (initState avg darks ps (measNames meas).length) 0 rfl rfl rfl
  refine ⟨g2, g3, ?_⟩
  simp only [runBatch]
  rw [g2, g3]

/--
C7.  Each loop iteration writes exactly one row, at the index equal to the
iteration counter, unconditionally: the row (and the attempted fit inside
it) is recorded whatever `read_err` says, `read_err` never influences the
iteration (readers agreeing on data give identical iterations), and writing
row `i` leaves every other row of the table unchanged.
-/
theorem c7_unconditional_row (ro : ReadOracle) (fo : FitOracle) (flag : Bool)
    (st : LoopState) (i : Nat) (fname : String) (hi : i < st.df.length) :
    (loopBody ro fo flag st i fname).df[i]? =
      some (some (mkRow i ((ro fname specType).spec_info.time)
        ((st.analyser.fit_spectrum fo ((ro fname specType).x, (ro fname specType).y)
          true InterpMethod.linear ["SO2"]).1))) ∧
    (∀ j, j ≠ i → (loopBody ro fo flag st i fname).df[j]? = st.df[j]?) ∧
    (∀ ro2, roAgree ro ro2 →
      loopBody ro fo flag st i fname = loopBody ro2 fo flag st i fname) := by
  refine ⟨?_, ?_, ?_⟩
  · show (st.df.set i _)[i]? = _
    rw [List.getElem?_set_self (by exact hi)]
  · intro j hj
    exact loopBody_df_ne ro fo flag st i fname j (fun e => hj e.symm)
  · intro ro2 h
    exact loopBody_ro_agree ro ro2 h fo flag st i fname

/-- C7 witness at a concrete iteration. -/
theorem c7_unconditional_row_witness :
    0 < (initState cAvg [] scriptParams 1).df.length ∧
    (loopBody cRoBad cFo true (initState cAvg [] scriptParams 1) 0 "a").df[0]? =
      some (some (mkRow 0 ((cRoBad "a" specType).spec_info.time)
        (((initState cAvg [] scriptParams 1).analyser.fit_spectrum cFo
          ((cRoBad "a" specType).x, (cRoBad "a" specType).y)
          true InterpMethod.linear ["SO2"]).1))) :=
  ⟨by decide,
   (c7_unconditional_row cRoBad cFo true (initState cAvg [] scriptParams 1) 0 "a"
     (by decide)).1⟩

theorem dfCol_getElem (df : List (Option (List ℚ))) (k j : Nat) :
    (dfCol df k)[j]? = df[j]?.map (fun o => o.bind (fun r => r[k]?)) := by
  simp [dfCol]

theorem dfCol_length (df : List (Option (List ℚ))) (k : Nat) :
    (dfCol df k).length = df.length := by
  simp [dfCol]

theorem midState_params_length (ro : ReadOracle) (fo : FitOracle) (avg : AvgOracle)
    (flag : Bool) (ps : List Param) (darks : List String) (meas : List String)
    (k : Nat) :
    (midState ro fo avg flag ps darks meas k).analyser.params.length = ps.length := by
  have h := congrArg List.length (midState_params_names ro fo avg flag ps darks meas k)
  simpa using h

theorem fitAt_params_names (ro : ReadOracle) (fo : FitOracle) (avg : AvgOracle)
    (flag : Bool) (ps : List Param) (darks : List String) (meas : List String)
    (j : Nat) :
    (fitAt ro fo avg flag ps darks meas j).params.map (fun p => p.name) =
      ps.map (fun p => p.name) := by
  have h := midState_params_names ro fo avg flag ps darks meas j
  simp only [fitAt, Analyser.fit_spectrum, List.map_map]
  exact h

theorem fitAt_params_length (ro : ReadOracle) (fo : FitOracle) (avg : AvgOracle)
    (flag : Bool) (ps : List Param) (darks : List String) (meas : List String)
    (j : Nat) :
    (fitAt ro fo avg flag ps darks meas j).params.length = ps.length := by
  have h := congrArg List.length (fitAt_params_names ro fo avg flag ps darks meas j)
  simpa using h

theorem midState_plot_succ (ro : ReadOracle) (fo : FitOracle) (avg : AvgOracle)
    (ps : List Param) (darks : List String) (meas : List String) (i : Nat)
    (hi : i < (measNames meas).length) :
    (midState ro fo avg true ps darks meas (i + 1)).plot =
      updatePlot (mkCols ps) ((midState ro fo avg true ps darks meas i).plot)
        (fitAt ro fo avg true ps darks meas i)
        ((midState ro fo avg true ps darks meas (i + 1)).df) i := by
  rw [midState_succ ro fo avg true ps darks meas i hi]
  have hc := midState_cols ro fo avg true ps darks meas i
  simp [loopBody, fitAt, hc]

/--
C8 amended: on each processed spectrum `i` the time-series artifact is fed
the two full `N`-length table columns (`Number` and `SO2`), in which the
entries for rows `0..i` hold the row indices and the SO2 fitted values of
the rows processed so far, while the entries for rows beyond `i` still hold
the empty placeholder of the preallocated table; the non-empty points are
therefore exactly the rows processed so far, but the artifact does receive
(placeholder) data for rows that have not yet been processed.
-/
theorem c8_timeseries (ro : ReadOracle) (fo : FitOracle) (avg : AvgOracle)
    (darks meas : List String) (i : Nat) (hi : i < (measNames meas).length) :
    (midState ro fo avg true scriptParams darks meas (i + 1)).plot.l5.1.length =
      (measNames meas).length ∧
    (midState ro fo avg true scriptParams darks meas (i + 1)).plot.l5.2.length =
      (measNames meas).length ∧
    (∀ j, j ≤ i →
      (midState ro fo avg true scriptParams darks meas (i + 1)).plot.l5.1[j]? =
        some (some ((j : ℚ))) ∧
      (midState ro fo avg true scriptParams darks meas (i + 1)).plot.l5.2[j]? =
        some (((fitAt ro fo avg true scriptParams darks meas j).params[0]?).map
          (fun p => p.fit_val)) ∧
      ((fitAt ro fo avg true scriptParams darks meas j).params[0]?).map
          (fun p => p.name) = some "SO2") ∧
    (∀ j, i < j → j < (measNames meas).length →
      (midState ro fo avg true scriptParams darks meas (i + 1)).plot.l5.1[j]? =
        some none ∧
      (midState ro fo avg true scriptParams darks meas (i + 1)).plot.l5.2[j]? =
        some none) := by
  have hplot := midState_plot_succ ro fo avg scriptParams darks meas i hi
  have hN := midState_df_length ro fo avg true scriptParams darks meas (i + 1)
  have hnum : (mkCols scriptParams).findIdx (fun c => decide (c = "Number")) = 0 := by
    decide
  have hso2 : (mkCols scriptParams).findIdx (fun c => decide (c = "SO2")) = 2 := by
    decide
  have hl5 : (midState ro fo avg true scriptParams darks meas (i + 1)).plot.l5 =
      (dfCol ((midState ro fo avg true scriptParams darks meas (i + 1)).df) 0,
       dfCol ((midState ro fo avg true scriptParams darks meas (i + 1)).df) 2) := by
    rw [hplot]
    simp [updatePlot, dfColByName, hnum, hso2]
  refine ⟨?_, ?_, ?_, ?_⟩
  · rw [hl5]
    simp [dfCol_length, hN]
  · rw [hl5]
    simp [dfCol_length, hN]
  · intro j hj
    have hdf : (midState ro fo avg true scriptParams darks meas (i + 1)).df[j]? =
        some (some (rowAt ro fo avg true scriptParams darks meas j)) :=
      midState_df_get ro fo avg true scriptParams darks meas (i + 1) j
        (by omega) (by omega)
    have h0 : 0 < (fitAt ro fo avg true scriptParams darks meas j).params.length := by
      rw [fitAt_params_length]
      decide
    refine ⟨?_, ?_, ?_⟩
    · rw [hl5]
      show (dfCol _ 0)[j]? = _
      rw [dfCol_getElem, hdf]
      simp [rowAt, mkRow]
    · rw [hl5]
      show (dfCol _ 2)[j]? = _
      rw [dfCol_getElem, hdf]
      have hval := mkRow_getElem_val j
        ((ro ((measNames meas).getD j "") specType).spec_info.time)
        (fitAt ro fo avg true scriptParams darks meas j) 0 h0
      show some ((mkRow j ((ro ((measNames meas).getD j "") specType).spec_info.time)
          (fitAt ro fo avg true scriptParams darks meas j) : List ℚ)[2]?) =
        some (((fitAt ro fo avg true scriptParams darks meas j).params[0]?).map
          (fun p => p.fit_val))
      rw [show (2 : Nat) = 2 + 2 * 0 from rfl, hval,
        List.getElem?_eq_getElem h0]
      rfl
    · calc ((fitAt ro fo avg true scriptParams darks meas j).params[0]?).map
            (fun p => p.name)
          = ((fitAt ro fo avg true scriptParams darks meas j).params.map
              (fun p => p.name))[0]? :=
            (List.getElem?_map (fun p => p.name)
              (fitAt ro fo avg true scriptParams darks meas j).params 0).symm
        _ = (scriptParams.map (fun p => p.name))[0]? := by
            rw [fitAt_params_names]
        _ = some "SO2" := rfl
  · intro j hij hjN
    have hdf : (midState ro fo avg true scriptParams darks meas (i + 1)).df[j]? =
        some none :=
      midState_df_none ro fo avg true scriptParams darks meas (i + 1) j
        (by omega) hjN
    rw [hl5]
    constructor
    · show (dfCol _ 0)[j]? = _
      rw [dfCol_getElem, hdf]
      rfl
    · show (dfCol _ 2)[j]? = _
      rw [dfCol_getElem, hdf]
      rfl

/-- C8 amended witness: a two-file batch after its first iteration. -/
theorem c8_timeseries_witness :
    0 < (measNames ["a", "b"]).length ∧
    (midState cRo cFo cAvg true scriptParams [] ["a", "b"] 1).plot.l5.1.length = 2 ∧
    (midState cRo cFo cAvg true scriptParams [] ["a", "b"] 1).plot.l5.1[0]? =
      some (some ((0 : ℚ))) :=
  have h := c8_timeseries cRo cFo cAvg [] ["a", "b"] 0 (by decide)
  ⟨by decide, h.1, (h.2.2.1 0 (le_refl 0)).1⟩

/--
C8 as stated is refuted: after the first of two spectra is processed, the
time-series artifact does not hold data for exactly the rows processed so
far (that would be one entry) — it holds two entries, including a
placeholder entry for row 1, which has not been processed yet.
-/
theorem c8_counterexample :
    ¬ ((midState cRo cFo cAvg true scriptParams [] ["a", "b"] 1).plot.l5.2.length = 1) ∧
    (midState cRo cFo cAvg true scriptParams [] ["a", "b"] 1).plot.l5.2[1]? =
      some none := by
  refine ⟨by decide, by decide⟩

/--
C9.  The dark/background reference is acquired exactly once, before any fit:
it is the average of the sorted, normalised dark file names, installed into
the Analyser before the loop, and the `dark_spec` field of every loop state
— and of the final, persisted run state — still holds that same value, so
every fit of the run used the same dark spectrum.
-/
theorem c9_dark_once (ro : ReadOracle) (fo : FitOracle) (avg : AvgOracle)
    (flag : Bool) (ps : List Param) (darks : List String) (meas : List String)
    (store0 : FileStore) (k : Nat) :
    (initState avg darks ps (measNames meas).length).analyser.dark_spec =
      some (avg ((sortFnames darks).map normSlash) specType).2 ∧
    (midState ro fo avg flag ps darks meas k).analyser.dark_spec =
      some (avg ((sortFnames darks).map normSlash) specType).2 ∧
    (runBatch ro fo avg flag ps darks meas store0).1.analyser.dark_spec =
      some (avg ((sortFnames darks).map normSlash) specType).2 := by
  refine ⟨rfl, ?_, ?_⟩
  · unfold midState
    rw [processFrom_dark]
    rfl
  · simp only [runBatch]
    rw [processFrom_dark]
    rfl

/--
C10.  `SO2` is the first registry parameter and the species requested via
`calc_od`, so every per-iteration lookup of the key `SO2` succeeds: the fit's
measured and synthetic optical-depth mappings both contain the key, the
result table's header contains an `SO2` column (at position 2), and the
fit's parameter collection has `SO2` at its head.
-/
theorem c10_so2_lookups (ro : ReadOracle) (fo : FitOracle) (avg : AvgOracle)
    (flag : Bool) (darks meas : List String) (j : Nat)
    (hj : j < (measNames meas).length) :
    ((fitAt ro fo avg flag scriptParams darks meas j).meas_od.lookup "SO2").isSome = true ∧
    ((fitAt ro fo avg flag scriptParams darks meas j).synth_od.lookup "SO2").isSome = true ∧
    "SO2" ∈ mkCols scriptParams ∧
    (mkCols scriptParams).findIdx (fun c => decide (c = "SO2")) = 2 ∧
    ((fitAt ro fo avg flag scriptParams darks meas j).params[0]?).map
        (fun p => p.name) = some "SO2" := by
  refine ⟨?_, ?_, by decide, by decide, ?_⟩
  · simp [fitAt, Analyser.fit_spectrum, List.lookup]
  · simp [fitAt, Analyser.fit_spectrum, List.lookup]
  · calc ((fitAt ro fo avg flag scriptParams darks meas j).params[0]?).map
          (fun p => p.name)
        = ((fitAt ro fo avg flag scriptParams darks meas j).params.map
            (fun p => p.name))[0]? :=
          (List.getElem?_map (fun p => p.name)
            (fitAt ro fo avg flag scriptParams darks meas j).params 0).symm
      _ = (scriptParams.map (fun p => p.name))[0]? := by
          rw [fitAt_params_names]
      _ = some "SO2" := rfl

/-- C10 witness at a concrete one-file batch. -/
theorem c10_so2_lookups_witness :
    0 < (measNames ["a"]).length ∧
    ((fitAt cRo cFo cAvg true scriptParams [] ["a"] 0).meas_od.lookup "SO2").isSome = true ∧
    ((fitAt cRo cFo cAvg true scriptParams [] ["a"] 0).params[0]?).map
        (fun p => p.name) = some "SO2" :=
  have h := c10_so2_lookups cRo cFo cAvg true [] ["a"] 0 (by decide)
  ⟨by decide, h.1, h.2.2.2.2⟩
